import Mathlib

/-
  Verification development for the serverless deadline-aware scheduling
  simulators.  The Python sources are shallowly embedded:

  * Python floats (arrival times, deadlines, runtimes, delays, costs) are
    modelled as rationals (ℚ), i.e. exact arithmetic on the decimal
    literals appearing in the source.
  * Python dicts used as caches are modelled as association lists with
    first-match lookup and in-place replacement, matching dict semantics.
  * Python's stable `list.sort(key=...)` is modelled by a stable insertion
    sort on the same key.
  * `heapq` (standard library) is modelled by its documented observable
    contract: `heappush` adds an entry to the heap's multiset of entries,
    `heappop` removes and returns the least entry in the tuple order
    `(priority, counter, task)`; counters are unique, so the comparison
    never reaches the task component.
-/

/-- One workload record as consumed by the simulators
(`OptimizedTask.__init__` / `Task.__init__`): `id`, `function_name`,
`arrival_time`, `deadline`, `payload.est_runtime` (optional, the engines
apply `payload.get('est_runtime', 1)`), `payload.name` (optional),
`metadata.memory_mb`, `metadata.trigger`. -/
structure PyTask where
  tid : String
  functionName : String
  arrival : ℚ
  deadline : ℚ
  estRuntime : Option ℚ
  pname : Option String
  memoryMb : ℚ
  trigger : String
deriving DecidableEq

/-- The engines read the runtime as `task.payload.get('est_runtime', 1)`. -/
def estRuntimeOf (t : PyTask) : ℚ :=
  t.estRuntime.getD 1

/-- Stable insertion of a task into a list sorted by `arrival_time`:
an element with an equal key is placed after no earlier-listed equal
element, modelling the stability of Python's `list.sort`. -/
def insertByArrival (t : PyTask) : List PyTask → List PyTask
  | [] => [t]
  | u :: us => if t.arrival ≤ u.arrival then t :: u :: us else u :: insertByArrival t us

/-- Model of `tasks.sort(key=lambda t: t.arrival_time)` (stable). -/
def sortByArrival : List PyTask → List PyTask
  | [] => []
  | t :: ts => insertByArrival t (sortByArrival ts)

/-- Per-task result fields of `custom_simulator.ServerlessSimulator.simulate`
(`Task` object after lines 147-152). -/
structure CustomRecord where
  tid : String
  pname : Option String
  arrival : ℚ
  deadline : ℚ
  enqueueTime : ℚ
  startTime : ℚ
  endTime : ℚ
  executionTime : ℚ
  queueTime : ℚ
  deadlineStatus : String
deriving DecidableEq

/-- Loop body of `custom_simulator.ServerlessSimulator.simulate`
(lines 122-167): given the running `current_time` and the next task in
arrival order, produce the new clock and the task's record. -/
def customStep (clock : ℚ) (t : PyTask) : ℚ × CustomRecord :=
  let arrivalTime := t.arrival
  let enqueueTime := arrivalTime
  let startTime := max clock arrivalTime
  let executionTime := estRuntimeOf t
  let endTime := startTime + executionTime
  let queueTime := startTime - enqueueTime
  let deadlineMissed := endTime > t.deadline
  let deadlineStatus := if deadlineMissed then "missed" else "on-time"
  (endTime,
    { tid := t.tid, pname := t.pname, arrival := t.arrival, deadline := t.deadline
      enqueueTime := enqueueTime, startTime := startTime, endTime := endTime
      executionTime := executionTime, queueTime := queueTime
      deadlineStatus := deadlineStatus })

/-- The simulation loop of `custom_simulator` over an already-sorted list. -/
def customSimRun (clock : ℚ) : List PyTask → List CustomRecord
  | [] => []
  | t :: ts =>
      let p := customStep clock t
      p.2 :: customSimRun p.1 ts

/-- `custom_simulator.ServerlessSimulator.simulate`: sort by arrival time,
then run the sequential loop from `current_time = 0`. -/
def customSimulate (wl : List PyTask) : List CustomRecord :=
  customSimRun 0 (sortByArrival wl)

/-- Per-task result fields of `run_sim_final.ServerlessSimulator.simulate`
(`Task` object after lines 200-206; this variant also stores the
`deadline_missed` flag and the trigger type). -/
structure FinalRecord where
  tid : String
  pname : Option String
  trigger : String
  arrival : ℚ
  deadline : ℚ
  enqueueTime : ℚ
  startTime : ℚ
  endTime : ℚ
  executionTime : ℚ
  queueTime : ℚ
  deadlineStatus : String
  deadlineMissed : Bool
deriving DecidableEq

/-- Loop body of `run_sim_final.ServerlessSimulator.simulate`
(lines 189-218). -/
def finalStep (clock : ℚ) (t : PyTask) : ℚ × FinalRecord :=
  let arrivalTime := t.arrival
  let enqueueTime := arrivalTime
  let startTime := max clock arrivalTime
  let executionTime := estRuntimeOf t
  let endTime := startTime + executionTime
  let queueTime := startTime - enqueueTime
  let deadlineMissed := endTime > t.deadline
  let deadlineStatus := if deadlineMissed then "missed" else "on-time"
  (endTime,
    { tid := t.tid, pname := t.pname, trigger := t.trigger
      arrival := t.arrival, deadline := t.deadline
      enqueueTime := enqueueTime, startTime := startTime, endTime := endTime
      executionTime := executionTime, queueTime := queueTime
      deadlineStatus := deadlineStatus, deadlineMissed := deadlineMissed })

/-- The simulation loop of `run_sim_final` over an already-sorted list. -/
def finalSimRun (clock : ℚ) : List PyTask → List FinalRecord
  | [] => []
  | t :: ts =>
      let p := finalStep clock t
      p.2 :: finalSimRun p.1 ts

/-- `run_sim_final.ServerlessSimulator.simulate`: sort by arrival time,
then run the sequential loop from `current_time = 0`. -/
def finalSimulate (wl : List PyTask) : List FinalRecord :=
  finalSimRun 0 (sortByArrival wl)

/-- The six per-task fields named by the equivalence claim, projected from a
`custom_simulator` record. -/
def customProj (r : CustomRecord) : String × ℚ × ℚ × ℚ × ℚ × ℚ × String :=
  (r.tid, r.enqueueTime, r.startTime, r.endTime, r.executionTime, r.queueTime,
    r.deadlineStatus)

/-- The six per-task fields named by the equivalence claim, projected from a
`run_sim_final` record. -/
def finalProj (r : FinalRecord) : String × ℚ × ℚ × ℚ × ℚ × ℚ × String :=
  (r.tid, r.enqueueTime, r.startTime, r.endTime, r.executionTime, r.queueTime,
    r.deadlineStatus)

/-- Configuration state of `OptimizedServerlessSimulator.__init__`:
`self.cold_start_ms = cold_start_ms / 1000.0` (seconds, despite the name),
`self.container_reuse`, `self.reuse_ttl`, `self.enable_cost_model`. -/
structure OptConfig where
  coldStartS : ℚ
  containerReuse : Bool
  reuseTtl : ℚ
  enableCostModel : Bool
deriving DecidableEq

/-- The constructor's `cold_start_ms / 1000.0` conversion. -/
def mkOptConfig (coldStartMs : ℚ) (reuse : Bool) (ttl : ℚ) (cost : Bool) : OptConfig :=
  { coldStartS := coldStartMs / 1000, containerReuse := reuse
    reuseTtl := ttl, enableCostModel := cost }

/-- `self.container_cache`: a dict from function name to last-active time,
modelled as an association list. -/
abbrev ContainerCache := List (String × ℚ)

/-- Dict read `self.container_cache.get(function_name)`. -/
def cacheGet : ContainerCache → String → Option ℚ
  | [], _ => none
  | (k, v) :: rest, f => if k = f then some v else cacheGet rest f

/-- Dict write `self.container_cache[function_name] = current_time`
(replace in place if the key exists, else append). -/
def cacheSet : ContainerCache → String → ℚ → ContainerCache
  | [], f, v => [(f, v)]
  | (k, w) :: rest, f, v => if k = f then (f, v) :: rest else (k, w) :: cacheSet rest f v

/-- `OptimizedServerlessSimulator._get_container_delay` (lines 218-237):
returns the startup delay and the updated container cache.  The cold-start
branch is guarded by `if not container_info:` — Python truthiness — so a
stored last-active time of `0.0` is treated like a missing record (cold
start, re-stamp the cache), not only `None`. -/
def getContainerDelay (cfg : OptConfig) (cache : ContainerCache) (fname : String)
    (currentTime : ℚ) : ℚ × ContainerCache :=
  if cfg.containerReuse = false then
    (cfg.coldStartS, cache)
  else
    match cacheGet cache fname with
    | none =>
        (cfg.coldStartS, cacheSet cache fname currentTime)
    | some lastUsed =>
        if lastUsed = 0 then
          (cfg.coldStartS, cacheSet cache fname currentTime)
        else if currentTime - lastUsed > cfg.reuseTtl then
          (cfg.coldStartS, cacheSet cache fname currentTime)
        else
          (0, cacheSet cache fname currentTime)

/-- `OptimizedServerlessSimulator._compute_cost` (lines 240-248).  Note that
the source hardcodes `memory_mb = 256`; the task's metadata is not read. -/
def computeCost (cfg : OptConfig) (executionTime : ℚ) : ℚ :=
  if cfg.enableCostModel = false then 0
  else
    let memoryMb : ℚ := 256
    let gbSeconds := (memoryMb / 1024) * executionTime
    let cost := gbSeconds * (1667 / 100000000)
    cost + 2 / 10000000

/-- Per-task record produced by `simulate_batch`'s `execute_task` closure. -/
structure OptRecord where
  tid : String
  pname : Option String
  trigger : String
  arrival : ℚ
  deadline : ℚ
  enqueueTime : ℚ
  startTime : ℚ
  endTime : ℚ
  executionTime : ℚ
  queueTime : ℚ
  deadlineStatus : String
  deadlineMissed : Bool
deriving DecidableEq

/-- Return value of one `execute_task` call: the filled task record, the
returned `end_time` and `cost`, and the container cache after the call. -/
structure ExecOutcome where
  record : OptRecord
  endTime : ℚ
  cost : ℚ
  cache : ContainerCache
deriving DecidableEq

/-- The `execute_task` closure of `OptimizedServerlessSimulator.simulate_batch`
(lines 255-281), as a pure function of the value `readClock` that its
unsynchronized read of the shared `current_time` variable observes. -/
def executeTask (cfg : OptConfig) (readClock : ℚ) (cache : ContainerCache)
    (t : PyTask) : ExecOutcome :=
  let arrivalTime := t.arrival
  let enqueueTime := arrivalTime
  let startTime0 := max readClock arrivalTime
  let d := getContainerDelay cfg cache t.functionName startTime0
  let startTime := startTime0 + d.1
  let executionTime := estRuntimeOf t
  let endTime := startTime + executionTime
  let queueTime := startTime - enqueueTime
  let deadlineMissed : Bool := decide (endTime > t.deadline)
  let deadlineStatus := if deadlineMissed then "missed" else "on-time"
  { record :=
      { tid := t.tid, pname := t.pname, trigger := t.trigger
        arrival := t.arrival, deadline := t.deadline
        enqueueTime := enqueueTime, startTime := startTime, endTime := endTime
        executionTime := executionTime, queueTime := queueTime
        deadlineStatus := deadlineStatus, deadlineMissed := deadlineMissed }
    endTime := endTime
    cost := computeCost cfg executionTime
    cache := d.2 }

/-- Mutable state threaded through `simulate_batch` and `simulate`:
the shared `current_time`, the container cache, the streamed result rows in
emission order, and the aggregate statistics. -/
structure BatchState where
  clock : ℚ
  cache : ContainerCache
  records : List OptRecord
  costTotal : ℚ
  totalTasks : ℕ
  onTimeTasks : ℕ
  missedTasks : ℕ
deriving DecidableEq

/-- Initial simulator state (`current_time = 0`, empty cache and stats). -/
def initBatchState : BatchState :=
  { clock := 0, cache := [], records := [], costTotal := 0
    totalTasks := 0, onTimeTasks := 0, missedTasks := 0 }

/-- One task of `simulate_batch` under the serialized interpretation: the
task's `execute_task` call and the main loop's handling of its future
(result write, statistics update, `current_time = max(current_time,
end_time)`) both complete before the next task begins.  The source gives no
such guarantee — `execute_task` calls run on a `ThreadPoolExecutor` while
`current_time` is committed only in the main thread's `as_completed` loop;
the dependence of the outcome on the unsynchronized read is exhibited
separately via `executeTask`. -/
def serializedBatchStep (cfg : OptConfig) (st : BatchState) (t : PyTask) : BatchState :=
  let o := executeTask cfg st.clock st.cache t
  { clock := max st.clock o.endTime
    cache := o.cache
    records := st.records ++ [o.record]
    costTotal := st.costTotal + o.cost
    totalTasks := st.totalTasks + 1
    onTimeTasks := st.onTimeTasks + (if o.record.deadlineMissed then 0 else 1)
    missedTasks := st.missedTasks + (if o.record.deadlineMissed then 1 else 0) }

/-- `simulate_batch` (serialized interpretation): sort the batch by arrival
time, then process each task in order. -/
def serializedBatch (cfg : OptConfig) (st : BatchState) (tasks : List PyTask) : BatchState :=
  (sortByArrival tasks).foldl (serializedBatchStep cfg) st

/-- Fuelled batch splitting: `for i in range(0, total, batch_size):
batch = workload[i:i+batch_size]` for a positive batch size.  The fuel is
instantiated with the workload length, which bounds the number of batches. -/
def chunksGo : ℕ → ℕ → List PyTask → List (List PyTask)
  | 0, _, _ => []
  | _, _, [] => []
  | fuel + 1, bs, t :: ts => (t :: ts).take bs :: chunksGo fuel bs ((t :: ts).drop bs)

/-- The list of batches taken by `simulate`'s loop for a positive batch
size.  (`batch_size ≤ 0` is handled at the `mainRun` level, matching
`range`'s semantics for non-positive steps.) -/
def chunks (bs : ℕ) (wl : List PyTask) : List (List PyTask) :=
  chunksGo wl.length bs wl

/-- Observable outcome of one `optimized_simulator.main` invocation:
how many tasks were processed, the truncation warnings (each carrying the
two numbers printed: the cap and the original workload size), the process
exit code, and the emitted result records in order. -/
structure RunOutcome where
  processed : ℕ
  warnings : List (ℕ × ℕ)
  exitCode : ℕ
  records : List OptRecord
deriving DecidableEq

/-- `optimized_simulator.main` together with
`OptimizedServerlessSimulator.__init__` / `simulate` (serialized
interpretation of the batch bodies):

* `__init__` truncates the workload when `self.max_tasks` is truthy
  (`None` and `0` are falsy) and the workload is longer, printing the
  warning `"Limiting workload to {max_tasks} tasks (was {total})"`, whose
  numeric payload is the pair `(max_tasks, total)`.
* `validate_workload` fails on an empty workload; `simulate` then returns
  `None` and `main` still returns 0.
* `simulate` iterates `range(0, total, batch_size)`: a negative step gives
  an empty range (no batches); a zero step raises `ValueError`, which
  `main`'s generic handler turns into exit code 1.
* Otherwise every batch is fed to `simulate_batch` and `main` returns 0. -/
def mainRun (maxTasks : Option ℕ) (batchSize : ℤ) (cfg : OptConfig)
    (wl : List PyTask) : RunOutcome :=
  let doTrunc : Bool :=
    match maxTasks with
    | none => false
    | some k => decide (k ≠ 0) && decide (wl.length > k)
  let wl' := if doTrunc then wl.take (maxTasks.getD 0) else wl
  let warns : List (ℕ × ℕ) := if doTrunc then [(maxTasks.getD 0, wl.length)] else []
  if wl'.length = 0 then
    { processed := 0, warnings := warns, exitCode := 0, records := [] }
  else if batchSize = 0 then
    { processed := 0, warnings := warns, exitCode := 1, records := [] }
  else
    let batches := if batchSize < 0 then [] else chunks batchSize.toNat wl'
    let final := batches.foldl (fun st b => serializedBatch cfg st b) initBatchState
    { processed := batches.foldl (fun n b => n + b.length) 0
      warnings := warns, exitCode := 0, records := final.records }

/-- One CSV row written by `StreamingCSVWriter.write_result` (lines 114-133):
the `Timestamp` column is `datetime.now().isoformat()`, i.e. the wall
clock at write time, modelled as the explicit input `now`. -/
structure CsvRow where
  timestamp : ℚ
  taskName : String
  taskId : String
  triggerType : String
  enqueueTime : ℚ
  startTime : ℚ
  endTime : ℚ
  waitTime : ℚ
  execDuration : ℚ
  deadline : ℚ
  deadlineStatus : String
deriving DecidableEq

/-- `StreamingCSVWriter.write_result` for one task record, as a function of
the wall-clock time `now` at which the row is written. -/
def writeResult (now : ℚ) (r : OptRecord) : CsvRow :=
  { timestamp := now
    taskName := r.pname.getD r.tid
    taskId := r.tid
    triggerType := r.trigger
    enqueueTime := r.enqueueTime
    startTime := r.startTime
    endTime := r.endTime
    waitTime := r.queueTime
    execDuration := r.executionTime
    deadline := r.deadline
    deadlineStatus := r.deadlineStatus }

/-- Modelled from the spec (§4.4 CostModel, for comparison only; this is the
claim's formula, not code): `cost = (memory_mb / 1024) *
exec_duration_seconds * price_per_gb_second + fixed_invocation_overhead`
with `memory_mb` the task's resource usage. -/
def specCost (memoryMb execDuration price overhead : ℚ) : ℚ :=
  memoryMb / 1024 * execDuration * price + overhead

/-- A task as held by `Scheduler/queue.py`'s `TaskQueue`
(`Scheduler/task_metadata.Task`): the queue's priority reads `deadline`
and `est_runtime`. -/
structure QTask where
  name : String
  deadline : ℚ
  est_runtime : ℚ
deriving DecidableEq

/-- `TaskQueue._get_priority`: the pair `(task.deadline, task.est_runtime)`. -/
def getPriority (t : QTask) : ℚ × ℚ :=
  (t.deadline, t.est_runtime)

/-- One heap element `(priority, counter, task)` as pushed by
`TaskQueue.enqueue`. -/
structure HeapEntry where
  prio : ℚ × ℚ
  ctr : ℕ
  task : QTask
deriving DecidableEq

/-- Python's tuple comparison on `(priority, counter, task)` restricted to
the first two components: counters are unique in every reachable heap, so
the `task` component is never compared. -/
def entryLe (a b : HeapEntry) : Prop :=
  a.prio.1 < b.prio.1 ∨
    (a.prio.1 = b.prio.1 ∧
      (a.prio.2 < b.prio.2 ∨ (a.prio.2 = b.prio.2 ∧ a.ctr ≤ b.ctr)))

instance (a b : HeapEntry) : Decidable (entryLe a b) := by
  unfold entryLe
  infer_instance

/-- Non-strict lexicographic order on `(deadline, est_runtime)` priorities,
the order in which the claim says pops must be non-decreasing. -/
def prioLe (p q : ℚ × ℚ) : Prop :=
  p.1 < q.1 ∨ (p.1 = q.1 ∧ p.2 ≤ q.2)

/-- The least entry among `x :: xs` in the tuple order (first occurrence
wins; irrelevant in reachable heaps, where keys are distinct). -/
def heapMin (x : HeapEntry) : List HeapEntry → HeapEntry
  | [] => x
  | y :: ys => if entryLe x y then heapMin x ys else heapMin y ys

/-- `heapq.heappop` modelled by its documented contract: remove and return
the least entry of the heap's multiset (the heap-array arrangement is an
implementation detail with no other observable effect through the
`TaskQueue` API). -/
def heapPop (h : List HeapEntry) : Option (HeapEntry × List HeapEntry) :=
  match h with
  | [] => none
  | x :: xs =>
      let m := heapMin x xs
      some (m, (x :: xs).erase m)

/-- Fuelled repeated `heappop` until empty; fuel is instantiated with the
heap size. -/
def drainGo : ℕ → List HeapEntry → List HeapEntry
  | 0, _ => []
  | _, [] => []
  | fuel + 1, x :: xs =>
      let m := heapMin x xs
      m :: drainGo fuel ((x :: xs).erase m)

/-- The sequence of entries returned by successive `TaskQueue.dequeue`
calls until the queue is empty. -/
def drainHeap (h : List HeapEntry) : List HeapEntry :=
  drainGo h.length h

/-- `TaskQueue` state: the heap's entries and `self._counter`. -/
structure TaskQueue where
  heap : List HeapEntry
  counter : ℕ
deriving DecidableEq

/-- `TaskQueue.__init__`. -/
def TaskQueue.empty : TaskQueue :=
  { heap := [], counter := 0 }

/-- `TaskQueue.enqueue`: push `(self._get_priority(task), self._counter,
task)` and increment the counter.  (`heappush` adds the entry to the
heap's multiset; the enqueue timestamping via `time.time()` does not
affect the queue order and is omitted.) -/
def TaskQueue.enqueue (q : TaskQueue) (t : QTask) : TaskQueue :=
  { heap := q.heap ++ [{ prio := getPriority t, ctr := q.counter, task := t }]
    counter := q.counter + 1 }

/-- A sequence of `enqueue` calls starting from a fresh queue. -/
def pushAll (ts : List QTask) : TaskQueue :=
  ts.foldl TaskQueue.enqueue TaskQueue.empty

/-- The heap entries created by pushing `ts` with counters `c, c+1, ...`
(characterization of `pushAll`'s heap contents). -/
def entriesFrom (c : ℕ) : List QTask → List HeapEntry
  | [] => []
  | t :: ts => { prio := getPriority t, ctr := c, task := t } :: entriesFrom (c + 1) ts

/-- Concrete workload item used by witnesses and counterexamples. -/
def tA : PyTask :=
  { tid := "A", functionName := "f", arrival := 0, deadline := 100
    estRuntime := some 10, pname := none, memoryMb := 256, trigger := "HTTP" }

/-- Second concrete workload item (same arrival as `tA`). -/
def tB : PyTask :=
  { tid := "B", functionName := "g", arrival := 0, deadline := 50
    estRuntime := some 10, pname := none, memoryMb := 256, trigger := "HTTP" }

/-- Concrete configuration: container reuse disabled, zero cold start,
cost model enabled. -/
def cfg0 : OptConfig := mkOptConfig 0 false 60 true

/-- Concrete configuration: reuse enabled, 100 ms cold start, 60 s ttl. -/
def cfgT : OptConfig := mkOptConfig 100 true 60 true

/-- Concrete configuration with a negative reuse ttl. -/
def cfgNegTtl : OptConfig := mkOptConfig 100 true (-5) true

/-- Two-task workload. -/
def wl2 : List PyTask := [tA, tB]

/-- Five-task workload. -/
def wl5 : List PyTask := List.replicate 5 tA

/-- Simultaneous arrivals: deadline 10, runtime 1, listed first. -/
def cTask10 : PyTask :=
  { tid := "D10", functionName := "f", arrival := 0, deadline := 10
    estRuntime := some 1, pname := none, memoryMb := 256, trigger := "HTTP" }

/-- Simultaneous arrivals: deadline 5, same runtime, listed second. -/
def cTask5 : PyTask :=
  { tid := "D5", functionName := "g", arrival := 0, deadline := 5
    estRuntime := some 1, pname := none, memoryMb := 256, trigger := "HTTP" }

/-- Task whose metadata reports 512 MB of memory. -/
def task512 : PyTask :=
  { tid := "M", functionName := "f", arrival := 0, deadline := 100
    estRuntime := some 1, pname := none, memoryMb := 512, trigger := "HTTP" }

/-- Concrete queue tasks for the priority-queue witness. -/
def qT1 : QTask := { name := "q1", deadline := 9, est_runtime := 2 }

/-- Second queue task: earlier deadline than `qT1`. -/
def qT2 : QTask := { name := "q2", deadline := 4, est_runtime := 3 }

/-- Third queue task: same key as `qT2`, inserted later. -/
def qT3 : QTask := { name := "q3", deadline := 4, est_runtime := 3 }

/-- C1: the spec's batch algorithm says `currentClock` is committed to task
i's `end_time` before task i+1 begins.  In the source, all `execute_task`
calls are submitted to a `ThreadPoolExecutor` up front and `current_time`
is only updated in the main thread's `as_completed` loop, so task i+1's
read of `current_time` is unsynchronized with task i's commit.  This
theorem evaluates the code at the failing input: with tasks `tA`, `tB`
(both arriving at 0, runtime 10), `tA` ends at 10, and `tB`'s record
depends on which clock value its unsynchronized read observes — reading
the stale clock 0 it starts at 0, reading the committed clock 10 it starts
at 10 — so the claimed sequencing is not a property of the code. -/
theorem C1_clock_commit_race_eval :
    (executeTask cfg0 0 [] tA).endTime = 10 ∧
    (executeTask cfg0 0 [] tB).record.startTime = 0 ∧
    (executeTask cfg0 10 [] tB).record.startTime = 10 ∧
    (executeTask cfg0 0 [] tB).record ≠ (executeTask cfg0 10 [] tB).record := by
  simp [executeTask, cfg0, mkOptConfig, getContainerDelay, computeCost, estRuntimeOf, tA, tB]

/-- C2: re-running the engine cannot reproduce identical result rows: the
`Timestamp` column of every row written by `StreamingCSVWriter.write_result`
is `datetime.now().isoformat()`, the wall clock at write time.  Evaluating
the code on the same task record at two different wall-clock instants
yields different rows. -/
theorem C2_wallclock_row_eval :
    writeResult 1 (executeTask cfg0 0 [] tA).record ≠
      writeResult 2 (executeTask cfg0 0 [] tA).record ∧
    (writeResult 1 (executeTask cfg0 0 [] tA).record).timestamp ≠
      (writeResult 2 (executeTask cfg0 0 [] tA).record).timestamp := by
  simp [writeResult]

/-- C9: no configuration validation exists.  With `batch_size = -1` the
batch loop `range(0, total, -1)` is empty: the run processes zero tasks,
emits no records, and exits 0 — there is no `ConfigurationError` and no
fail-fast.  With a negative `reuse_ttl` the run proceeds normally and
processes every task. -/
theorem C9_no_config_validation_eval :
    (mainRun none (-1) cfg0 wl2).processed = 0 ∧
    (mainRun none (-1) cfg0 wl2).records = [] ∧
    (mainRun none (-1) cfg0 wl2).exitCode = 0 ∧
    (mainRun none 1000 cfgNegTtl wl2).processed = 2 ∧
    (mainRun none 1000 cfgNegTtl wl2).records.length = 2 ∧
    (mainRun none 1000 cfgNegTtl wl2).exitCode = 0 := by
  simp [mainRun, wl2, chunks, chunksGo, serializedBatch, serializedBatchStep, sortByArrival,
    insertByArrival, executeTask, getContainerDelay, computeCost, estRuntimeOf, cacheGet,
    cacheSet, cfg0, cfgNegTtl, mkOptConfig, initBatchState, tA, tB]

/-- C7 counterexample: `_compute_cost` hardcodes `memory_mb = 256` and never
reads the task's resource usage.  For a task whose metadata reports 512 MB,
the cost computed by the code differs from the claim's formula applied to
the task's memory. -/
theorem C7_counterexample :
    (executeTask cfg0 0 [] task512).cost ≠
      specCost task512.memoryMb (executeTask cfg0 0 [] task512).record.executionTime
        (1667 / 100000000) (2 / 10000000) := by
  simp [executeTask, specCost, cfg0, mkOptConfig, getContainerDelay, computeCost,
    estRuntimeOf, task512]
  norm_num

/-- C8 counterexample: with `max_tasks = 2` and a 5-task workload the
truncation warning is printed once with the numeric payload `(2, 5)` —
the cap and the original count.  The count of tasks skipped, `5 - 2 = 3`,
appears in neither number, so the warning does not include it. -/
theorem C8_counterexample :
    (mainRun (some 2) 1000 cfg0 wl5).warnings = [(2, 5)] ∧
    5 - 2 = 3 ∧
    (2 : ℕ) ≠ 3 ∧ (5 : ℕ) ≠ 3 := by
  simp [mainRun, wl5, tA]

/-- The two sequential loops perform identical per-task computations: from
equal clocks they produce records that agree on all six claimed fields. -/
theorem finalSimRun_proj_eq (ts : List PyTask) :
    ∀ clock : ℚ, (finalSimRun clock ts).map finalProj = (customSimRun clock ts).map customProj := by
  induction ts with
  | nil => intro clock; rfl
  | cons t ts ih =>
      intro clock
      simp only [finalSimRun, customSimRun, List.map_cons, finalStep, customStep,
        finalProj, customProj]
      exact congrArg _ (ih _)

/-- C10: the engines in `custom_simulator.py` and `run_sim_final.py` are
behaviorally equivalent: for every workload, after the arrival-time sort
they assign identical enqueue, start, end, execution and queue times and
the same deadline status to every task, in the same order. -/
theorem C10_engines_equiv (wl : List PyTask) :
    (finalSimulate wl).map finalProj = (customSimulate wl).map customProj := by
  unfold finalSimulate customSimulate
  exact finalSimRun_proj_eq (sortByArrival wl) 0

/-- Sorting a two-element list whose arrivals are equal keeps the input
order (stability of the arrival sort). -/
theorem sortByArrival_pair_eq (a b : PyTask) (h : a.arrival = b.arrival) :
    sortByArrival [a, b] = [a, b] := by
  simp [sortByArrival, insertByArrival, h]

/-- C3 counterexample: two tasks arrive at time 0 with runtime 1; the
deadline-10 task is listed first, the deadline-5 task second.  Both the
sequential engine and the (serialized) batch engine sort only by
arrival_time — a stable sort that keeps input order on ties — so the
deadline-10 task starts at 0 and the deadline-5 task at 1: the task with
deadline 5 is not scheduled to start first. -/
theorem C3_counterexample :
    ((customSimulate [cTask10, cTask5]).map fun r => (r.tid, r.deadline, r.startTime)) =
      [("D10", 10, 0), ("D5", 5, 1)] ∧
    ((serializedBatch cfg0 initBatchState [cTask10, cTask5]).records.map
        fun r => (r.tid, r.deadline, r.startTime)) =
      [("D10", 10, 0), ("D5", 5, 1)] := by
  constructor
  · simp [customSimulate, sortByArrival, insertByArrival, cTask10, cTask5,
      customSimRun, customStep, estRuntimeOf]
  · simp [serializedBatch, sortByArrival, insertByArrival, cTask10, cTask5,
      serializedBatchStep, initBatchState, executeTask, getContainerDelay,
      computeCost, estRuntimeOf, cfg0, mkOptConfig]

/-- C3 amended: among simultaneous arrivals both engines process tasks in
input order (the stable arrival-time sort ignores deadlines entirely), so
the deadline-5 task starts first only when it is listed before the
deadline-10 task; and with a non-negative runtime the first-listed task
starts no later than the second. -/
theorem C3_input_order (a b : PyTask) (cfg : OptConfig) (h : a.arrival = b.arrival) :
    (customSimulate [a, b]).map CustomRecord.tid = [a.tid, b.tid] ∧
    (serializedBatch cfg initBatchState [a, b]).records.map OptRecord.tid = [a.tid, b.tid] ∧
    (0 ≤ estRuntimeOf a →
      ∀ ra rb, customSimulate [a, b] = [ra, rb] → ra.startTime ≤ rb.startTime) := by
  have hs := sortByArrival_pair_eq a b h
  refine ⟨?_, ?_, ?_⟩
  · simp [customSimulate, hs, customSimRun, customStep]
  · simp [serializedBatch, hs, serializedBatchStep, initBatchState, executeTask]
  · intro he ra rb hout
    have hc : customSimulate [a, b] =
        [(customStep 0 a).2, (customStep (customStep 0 a).1 b).2] := by
      simp [customSimulate, hs, customSimRun]
    rw [hc] at hout
    injection hout with h1 h2
    injection h2 with h2 h3
    subst h1
    subst h2
    simp only [customStep]
    have hm : max (0 : ℚ) a.arrival ≤ max 0 a.arrival + estRuntimeOf a := by linarith
    exact le_trans hm (le_max_left _ _)

/-- C3 witness: the amended statement instantiated at the two concrete
simultaneous-arrival tasks. -/
theorem C3_input_order_witness :
    (customSimulate [cTask10, cTask5]).map CustomRecord.tid = [cTask10.tid, cTask5.tid] ∧
    (serializedBatch cfg0 initBatchState [cTask10, cTask5]).records.map OptRecord.tid =
      [cTask10.tid, cTask5.tid] ∧
    (0 ≤ estRuntimeOf cTask10 →
      ∀ ra rb, customSimulate [cTask10, cTask5] = [ra, rb] → ra.startTime ≤ rb.startTime) :=
  C3_input_order cTask10 cTask5 cfg0 (by simp [cTask10, cTask5])

/-- Reading back the key just written to the container cache. -/
theorem cacheGet_cacheSet_self (c : ContainerCache) (f : String) (v : ℚ) :
    cacheGet (cacheSet c f v) f = some v := by
  induction c with
  | nil => simp [cacheSet, cacheGet]
  | cons p rest ih =>
      by_cases h : p.1 = f
      · simp [cacheSet, cacheGet, h]
      · simp [cacheSet, cacheGet, h, ih]

/-- With container reuse enabled, every `_get_container_delay` call stamps
`container_cache[function_name] = current_time`, whichever branch runs. -/
theorem getContainerDelay_snd (cfg : OptConfig) (cache : ContainerCache) (f : String)
    (t : ℚ) (hr : cfg.containerReuse = true) :
    (getContainerDelay cfg cache f t).2 = cacheSet cache f t := by
  unfold getContainerDelay
  rw [hr]
  simp only [Bool.true_eq_false, if_false]
  cases cacheGet cache f with
  | none => rfl
  | some lastUsed =>
      by_cases h0 : lastUsed = 0
      · simp [h0]
      · by_cases h : t - lastUsed > cfg.reuseTtl <;> simp [h0, h]

/-- C5: the claim (and spec Scenario C) says two consecutive invocations
of the same function at `t1 = 0` and `t2 = 30` with `reuse_ttl = 60` give
delay `0` (warm reuse) on the second call.  The source's cold branch is
guarded by `if not container_info:`, and Python treats the stored
last-active time `0.0` as falsy — as if no record existed — so at exactly
this input the second call returns the full cold-start delay `0.1 ≠ 0`.
With a nonzero first-invocation time (`t1 = 5`) the code behaves as the
claim says, isolating the truthiness slip to a zero stored time. -/
theorem C5_truthiness_cold_eval :
    cacheGet (getContainerDelay cfgT [] "f" 0).2 "f" = some 0 ∧
    (30 : ℚ) - 0 ≤ cfgT.reuseTtl ∧
    (getContainerDelay cfgT (getContainerDelay cfgT [] "f" 0).2 "f" 30).1 =
      cfgT.coldStartS ∧
    cfgT.coldStartS ≠ 0 ∧
    (getContainerDelay cfgT (getContainerDelay cfgT [] "f" 5).2 "f" 30).1 = 0 := by
  norm_num [getContainerDelay, cacheGet, cacheSet, cfgT, mkOptConfig]

/-- The startup delay is non-negative whenever the configured cold start
is. -/
theorem getContainerDelay_nonneg (cfg : OptConfig) (cache : ContainerCache) (f : String)
    (t : ℚ) (hc : 0 ≤ cfg.coldStartS) :
    0 ≤ (getContainerDelay cfg cache f t).1 := by
  unfold getContainerDelay
  by_cases hr : cfg.containerReuse = false
  · simp [hr, hc]
  · simp only [hr, if_false]
    cases cacheGet cache f with
    | none => exact hc
    | some lastUsed =>
        by_cases h0 : lastUsed = 0
        · simp [h0, hc]
        · by_cases h : t - lastUsed > cfg.reuseTtl <;> simp [h0, h, hc]

/-- Invariants of one `customStep` record. -/
theorem customStep_props (clock : ℚ) (t : PyTask) :
    (customStep clock t).2.arrival ≤ (customStep clock t).2.startTime ∧
    (customStep clock t).2.endTime =
      (customStep clock t).2.startTime + (customStep clock t).2.executionTime ∧
    ((customStep clock t).2.deadlineStatus = "missed" ↔
      (customStep clock t).2.deadline < (customStep clock t).2.endTime) ∧
    ¬((customStep clock t).2.deadlineStatus = "missed" ∧
      (customStep clock t).2.deadlineStatus = "on-time") := by
  have harr := le_max_right clock t.arrival
  by_cases h : t.deadline < max clock t.arrival + estRuntimeOf t <;>
    simp [customStep, h, gt_iff_lt]

/-- Every record emitted by the sequential loop satisfies the record
invariants, whatever the running clock. -/
theorem customSimRun_mem_props (ts : List PyTask) :
    ∀ (clock : ℚ) (r : CustomRecord), r ∈ customSimRun clock ts →
      r.arrival ≤ r.startTime ∧ r.endTime = r.startTime + r.executionTime ∧
      (r.deadlineStatus = "missed" ↔ r.deadline < r.endTime) ∧
      ¬(r.deadlineStatus = "missed" ∧ r.deadlineStatus = "on-time") := by
  induction ts with
  | nil => intro clock r hr; simp [customSimRun] at hr
  | cons t ts ih =>
      intro clock r hr
      simp only [customSimRun, List.mem_cons] at hr
      cases hr with
      | inl h => subst h; exact customStep_props clock t
      | inr h => exact ih _ r h

/-- C6: for every task processed by either engine, the emitted record has
`start_time ≥ arrival_time`, `end_time = start_time + exec_duration`, and
`deadline_status = "missed"` exactly when `end_time > deadline` (a record
is never flagged both ways).  For the batch engine this holds per task for
any value its unsynchronized clock read observes, given a non-negative
configured cold start. -/
theorem C6_record_invariants :
    (∀ (cfg : OptConfig) (clock : ℚ) (cache : ContainerCache) (t : PyTask),
      0 ≤ cfg.coldStartS →
      t.arrival ≤ (executeTask cfg clock cache t).record.startTime ∧
      (executeTask cfg clock cache t).record.endTime =
        (executeTask cfg clock cache t).record.startTime +
          (executeTask cfg clock cache t).record.executionTime ∧
      ((executeTask cfg clock cache t).record.deadlineStatus = "missed" ↔
        (executeTask cfg clock cache t).record.deadline <
          (executeTask cfg clock cache t).record.endTime) ∧
      ¬((executeTask cfg clock cache t).record.deadlineStatus = "missed" ∧
        (executeTask cfg clock cache t).record.deadlineStatus = "on-time")) ∧
    (∀ (wl : List PyTask) (r : CustomRecord), r ∈ customSimulate wl →
      r.arrival ≤ r.startTime ∧ r.endTime = r.startTime + r.executionTime ∧
      (r.deadlineStatus = "missed" ↔ r.deadline < r.endTime) ∧
      ¬(r.deadlineStatus = "missed" ∧ r.deadlineStatus = "on-time")) := by
  constructor
  · intro cfg clock cache t hc
    have hd := getContainerDelay_nonneg cfg cache t.functionName (max clock t.arrival) hc
    have harr := le_max_right clock t.arrival
    by_cases h :
        t.deadline < max clock t.arrival + (getContainerDelay cfg cache t.functionName
          (max clock t.arrival)).1 + estRuntimeOf t <;>
      simp [executeTask, h, gt_iff_lt] <;> linarith
  · intro wl r hr
    exact customSimRun_mem_props (sortByArrival wl) 0 r hr

/-- C6 witness: the record invariants instantiated for task `tA` under the
zero-cold-start configuration, and for the one-task workload `[tA]`. -/
theorem C6_witness :
    tA.arrival ≤ (executeTask cfg0 0 [] tA).record.startTime ∧
    (executeTask cfg0 0 [] tA).record.endTime =
      (executeTask cfg0 0 [] tA).record.startTime +
        (executeTask cfg0 0 [] tA).record.executionTime ∧
    ((executeTask cfg0 0 [] tA).record.deadlineStatus = "missed" ↔
      (executeTask cfg0 0 [] tA).record.deadline <
        (executeTask cfg0 0 [] tA).record.endTime) ∧
    ¬((executeTask cfg0 0 [] tA).record.deadlineStatus = "missed" ∧
      (executeTask cfg0 0 [] tA).record.deadlineStatus = "on-time") :=
  C6_record_invariants.1 cfg0 0 [] tA (by simp [cfg0, mkOptConfig])

/-- C7 amended: the cost attached to every completed task is
`_compute_cost` of its execution duration, which equals
`(256 / 1024) * exec_duration * 0.00001667 + 0.0000002` — the memory factor
is fixed at 256 MB; the task's memory metadata is ignored.  The cost is
non-negative whenever the execution duration is, and it is exactly 0 for
every task when the cost model is disabled. -/
theorem C7_cost_model (cfg : OptConfig) (clock : ℚ) (cache : ContainerCache) (t : PyTask) :
    (executeTask cfg clock cache t).cost =
      computeCost cfg (executeTask cfg clock cache t).record.executionTime ∧
    (cfg.enableCostModel = true →
      computeCost cfg (estRuntimeOf t) =
        (256 : ℚ) / 1024 * estRuntimeOf t * (1667 / 100000000) + 2 / 10000000) ∧
    (0 ≤ estRuntimeOf t → 0 ≤ computeCost cfg (estRuntimeOf t)) ∧
    (cfg.enableCostModel = false → computeCost cfg (estRuntimeOf t) = 0) := by
  refine ⟨rfl, ?_, ?_, ?_⟩
  · intro h; simp [computeCost, h]
  · intro h
    unfold computeCost
    by_cases hc : cfg.enableCostModel = false
    · simp [hc]
    · simp only [hc, if_false]
      positivity
  · intro h; simp [computeCost, h]

/-- C7 witness: the amended cost statement instantiated at `task512` under
the cost-enabled configuration. -/
theorem C7_witness :
    (executeTask cfg0 0 [] task512).cost =
      computeCost cfg0 (executeTask cfg0 0 [] task512).record.executionTime ∧
    computeCost cfg0 (estRuntimeOf task512) =
      (256 : ℚ) / 1024 * estRuntimeOf task512 * (1667 / 100000000) + 2 / 10000000 ∧
    0 ≤ computeCost cfg0 (estRuntimeOf task512) := by
  have h := C7_cost_model cfg0 0 [] task512
  exact ⟨h.1, h.2.1 rfl, h.2.2.1 (by simp [estRuntimeOf, task512])⟩

/-- Concatenating the batch slices recovers the workload (positive batch
size). -/
theorem chunksGo_flatten (bs : ℕ) (hbs : 0 < bs) :
    ∀ (fuel : ℕ) (wl : List PyTask), wl.length ≤ fuel → (chunksGo fuel bs wl).flatten = wl := by
  intro fuel
  induction fuel with
  | zero =>
      intro wl hw
      have : wl = [] := List.eq_nil_of_length_eq_zero (Nat.le_zero.mp hw)
      subst this
      rfl
  | succ fuel ih =>
      intro wl hw
      cases wl with
      | nil => rfl
      | cons t ts =>
          have hdrop : ((t :: ts).drop bs).length ≤ fuel := by
            have : ((t :: ts).drop bs).length = (t :: ts).length - bs := by
              simp [List.length_drop]
            rw [this]
            have h1 : (t :: ts).length ≤ fuel + 1 := hw
            omega
          simp only [chunksGo, List.flatten_cons]
          rw [ih _ hdrop]
          exact List.take_append_drop bs (t :: ts)

/-- The batch loop's running task counter equals the length of the
concatenation of the batches. -/
theorem foldl_add_length (l : List (List PyTask)) :
    ∀ n : ℕ, l.foldl (fun n b => n + b.length) n = n + l.flatten.length := by
  induction l with
  | nil => intro n; simp
  | cons b l ih =>
      intro n
      simp only [List.foldl, List.flatten_cons, List.length_append]
      rw [ih]
      omega

/-- C8 amended: with `max_tasks = k` smaller than the workload and a
positive batch size, the run processes exactly `k` tasks, prints the
truncation warning once — carrying the cap `k` and the original task count
(from which the skipped count follows, though it is not itself printed) —
and exits 0. -/
theorem C8_truncation (k : ℕ) (bs : ℤ) (cfg : OptConfig) (wl : List PyTask)
    (hk : 0 < k) (hlen : k < wl.length) (hbs : 0 < bs) :
    (mainRun (some k) bs cfg wl).processed = k ∧
    (mainRun (some k) bs cfg wl).warnings = [(k, wl.length)] ∧
    (mainRun (some k) bs cfg wl).exitCode = 0 := by
  have hk0 : ¬(k = 0) := by omega
  have htr : (decide (k ≠ 0) && decide (wl.length > k)) = true := by
    simp only [Bool.and_eq_true, decide_eq_true_eq]
    exact ⟨hk0, hlen⟩
  have htake : (wl.take k).length = k := by
    rw [List.length_take]
    omega
  have hbz : ¬bs = 0 := by omega
  have hbneg : ¬bs < 0 := by omega
  have hbnat : 0 < bs.toNat := by omega
  unfold mainRun
  simp only [htr, if_true, Option.getD_some, htake, hk0, if_false, hbz, hbneg]
  refine ⟨?_, by trivial, by trivial⟩
  unfold chunks
  rw [foldl_add_length,
    chunksGo_flatten bs.toNat hbnat ((wl.take k).length) (wl.take k) (le_refl _)]
  omega

/-- C8 witness: the amended truncation statement instantiated at
`max_tasks = 2` over the five-task workload. -/
theorem C8_truncation_witness :
    (mainRun (some 2) 1000 cfg0 wl5).processed = 2 ∧
    (mainRun (some 2) 1000 cfg0 wl5).warnings = [(2, wl5.length)] ∧
    (mainRun (some 2) 1000 cfg0 wl5).exitCode = 0 :=
  C8_truncation 2 1000 cfg0 wl5 (by decide) (by simp [wl5]) (by decide)

/-- The tuple order on heap entries is reflexive. -/
theorem entryLe_refl (a : HeapEntry) : entryLe a a :=
  Or.inr ⟨rfl, Or.inr ⟨rfl, le_refl _⟩⟩

/-- The tuple order on heap entries is transitive. -/
theorem entryLe_trans {a b c : HeapEntry} (h1 : entryLe a b) (h2 : entryLe b c) :
    entryLe a c := by
  unfold entryLe at *
  obtain h1 | ⟨e1, h1⟩ := h1 <;> obtain h2 | ⟨e2, h2⟩ := h2
  · exact Or.inl (lt_trans h1 h2)
  · exact Or.inl (by rw [← e2]; exact h1)
  · exact Or.inl (by rw [e1]; exact h2)
  · refine Or.inr ⟨by rw [e1, e2], ?_⟩
    obtain h1 | ⟨f1, h1⟩ := h1 <;> obtain h2 | ⟨f2, h2⟩ := h2
    · exact Or.inl (lt_trans h1 h2)
    · exact Or.inl (by rw [← f2]; exact h1)
    · exact Or.inl (by rw [f1]; exact h2)
    · exact Or.inr ⟨by rw [f1, f2], le_trans h1 h2⟩

/-- The tuple order on heap entries is total. -/
theorem entryLe_total (a b : HeapEntry) : entryLe a b ∨ entryLe b a := by
  unfold entryLe
  rcases lt_trichotomy a.prio.1 b.prio.1 with h | h | h
  · exact Or.inl (Or.inl h)
  · rcases lt_trichotomy a.prio.2 b.prio.2 with g | g | g
    · exact Or.inl (Or.inr ⟨h, Or.inl g⟩)
    · rcases Nat.le_total a.ctr b.ctr with c | c
      · exact Or.inl (Or.inr ⟨h, Or.inr ⟨g, c⟩⟩)
      · exact Or.inr (Or.inr ⟨h.symm, Or.inr ⟨g.symm, c⟩⟩)
    · exact Or.inr (Or.inr ⟨h.symm, Or.inl g⟩)
  · exact Or.inr (Or.inl h)

/-- `heapMin` is a lower bound of the list it scans. -/
theorem heapMin_le (ys : List HeapEntry) :
    ∀ x z, z ∈ x :: ys → entryLe (heapMin x ys) z := by
  induction ys with
  | nil =>
      intro x z hz
      have : z = x := by simpa using hz
      subst this
      exact entryLe_refl z
  | cons y ys ih =>
      intro x z hz
      simp only [heapMin]
      by_cases h : entryLe x y
      · rw [if_pos h]
        rcases List.mem_cons.mp hz with h' | hz'
        · rw [h']
          exact ih x x (List.mem_cons_self x ys)
        · rcases List.mem_cons.mp hz' with h' | hz''
          · rw [h']
            exact entryLe_trans (ih x x (List.mem_cons_self x ys)) h
          · exact ih x z (List.mem_cons_of_mem x hz'')
      · rw [if_neg h]
        have hyx : entryLe y x := (entryLe_total x y).resolve_left h
        rcases List.mem_cons.mp hz with h' | hz'
        · rw [h']
          exact entryLe_trans (ih y y (List.mem_cons_self y ys)) hyx
        · rcases List.mem_cons.mp hz' with h' | hz''
          · rw [h']
            exact ih y y (List.mem_cons_self y ys)
          · exact ih y z (List.mem_cons_of_mem y hz'')

/-- `heapMin` returns an element of the list it scans. -/
theorem heapMin_mem (ys : List HeapEntry) : ∀ x, heapMin x ys ∈ x :: ys := by
  induction ys with
  | nil => intro x; simp [heapMin]
  | cons y ys ih =>
      intro x
      simp only [heapMin]
      by_cases h : entryLe x y
      · rw [if_pos h]
        rcases List.mem_cons.mp (ih x) with h' | h'
        · exact List.mem_cons.mpr (Or.inl h')
        · exact List.mem_cons.mpr (Or.inr (List.mem_cons_of_mem y h'))
      · rw [if_neg h]
        exact List.mem_cons_of_mem x (ih y)

/-- Drained entries come from the heap. -/
theorem drainGo_mem : ∀ (fuel : ℕ) (h : List HeapEntry) (e : HeapEntry),
    e ∈ drainGo fuel h → e ∈ h := by
  intro fuel
  induction fuel with
  | zero => intro h e he; simp [drainGo] at he
  | succ fuel ih =>
      intro h e he
      cases h with
      | nil => simp [drainGo] at he
      | cons x xs =>
          simp only [drainGo, List.mem_cons] at he
          rcases he with rfl | he
          · exact heapMin_mem xs x
          · exact List.mem_of_mem_erase (ih _ e he)

/-- Draining is a permutation of the heap (with enough fuel). -/
theorem drainGo_perm : ∀ (fuel : ℕ) (h : List HeapEntry), h.length ≤ fuel →
    List.Perm (drainGo fuel h) h := by
  intro fuel
  induction fuel with
  | zero =>
      intro h hh
      have : h = [] := List.eq_nil_of_length_eq_zero (Nat.le_zero.mp hh)
      subst this
      exact List.Perm.refl _
  | succ fuel ih =>
      intro h hh
      cases h with
      | nil => exact List.Perm.refl _
      | cons x xs =>
          have hm : heapMin x xs ∈ x :: xs := heapMin_mem xs x
          have hlen : ((x :: xs).erase (heapMin x xs)).length ≤ fuel := by
            rw [List.length_erase_of_mem hm]
            simp only [List.length_cons] at hh ⊢
            omega
          show List.Perm
            (heapMin x xs :: drainGo fuel ((x :: xs).erase (heapMin x xs))) (x :: xs)
          exact List.Perm.trans (List.Perm.cons _ (ih _ hlen))
            ((List.perm_cons_erase hm).symm)

/-- The drained sequence is sorted in the tuple order. -/
theorem drainGo_sorted : ∀ (fuel : ℕ) (h : List HeapEntry), h.length ≤ fuel →
    List.Pairwise entryLe (drainGo fuel h) := by
  intro fuel
  induction fuel with
  | zero => intro h hh; simp [drainGo]
  | succ fuel ih =>
      intro h hh
      cases h with
      | nil => simp [drainGo]
      | cons x xs =>
          have hm : heapMin x xs ∈ x :: xs := heapMin_mem xs x
          have hlen : ((x :: xs).erase (heapMin x xs)).length ≤ fuel := by
            rw [List.length_erase_of_mem hm]
            simp only [List.length_cons] at hh ⊢
            omega
          show List.Pairwise entryLe
            (heapMin x xs :: drainGo fuel ((x :: xs).erase (heapMin x xs)))
          refine List.Pairwise.cons ?_ (ih _ hlen)
          intro z hz
          have hz1 : z ∈ (x :: xs).erase (heapMin x xs) := drainGo_mem fuel _ z hz
          exact heapMin_le xs x z (List.mem_of_mem_erase hz1)

/-- Folding `enqueue` appends the entries with consecutive counters. -/
theorem foldl_enqueue_heap : ∀ (ts : List QTask) (q : TaskQueue),
    (ts.foldl TaskQueue.enqueue q).heap = q.heap ++ entriesFrom q.counter ts := by
  intro ts
  induction ts with
  | nil => intro q; simp [entriesFrom]
  | cons t ts ih =>
      intro q
      simp only [List.foldl, entriesFrom]
      rw [ih]
      simp [TaskQueue.enqueue]

/-- The heap after pushing a task list from the empty queue. -/
theorem pushAll_heap (ts : List QTask) : (pushAll ts).heap = entriesFrom 0 ts := by
  unfold pushAll TaskQueue.empty
  rw [foldl_enqueue_heap]
  rfl

/-- Counters of pushed entries are at least the starting counter. -/
theorem entriesFrom_ctr_ge : ∀ (ts : List QTask) (c : ℕ) (e : HeapEntry),
    e ∈ entriesFrom c ts → c ≤ e.ctr := by
  intro ts
  induction ts with
  | nil => intro c e he; simp [entriesFrom] at he
  | cons t ts ih =>
      intro c e he
      simp only [entriesFrom, List.mem_cons] at he
      rcases he with rfl | he
      · exact le_refl c
      · exact le_trans (Nat.le_succ c) (ih (c + 1) e he)

/-- Counters of pushed entries are pairwise distinct. -/
theorem entriesFrom_ctr_nodup : ∀ (ts : List QTask) (c : ℕ),
    ((entriesFrom c ts).map HeapEntry.ctr).Nodup := by
  intro ts
  induction ts with
  | nil => intro c; simp [entriesFrom]
  | cons t ts ih =>
      intro c
      simp only [entriesFrom, List.map_cons]
      refine List.nodup_cons.mpr ⟨?_, ih (c + 1)⟩
      intro hc
      obtain ⟨e, he, hce⟩ := List.mem_map.mp hc
      have := entriesFrom_ctr_ge ts (c + 1) e he
      omega

/-- Every pushed entry's counter indexes its task in the insertion
sequence. -/
theorem entriesFrom_get : ∀ (ts : List QTask) (c : ℕ) (e : HeapEntry),
    e ∈ entriesFrom c ts → ts.get? (e.ctr - c) = some e.task := by
  intro ts
  induction ts with
  | nil => intro c e he; simp [entriesFrom] at he
  | cons t ts ih =>
      intro c e he
      simp only [entriesFrom, List.mem_cons] at he
      rcases he with rfl | he
      · show (t :: ts).get? (c - c) = some t
        rw [Nat.sub_self]
        rfl
      · have hge := entriesFrom_ctr_ge ts (c + 1) e he
        have hrec := ih (c + 1) e he
        have hc : e.ctr - c = (e.ctr - (c + 1)) + 1 := by omega
        rw [hc]
        exact hrec

/-- C4: for every sequence of pushes into `TaskQueue`, draining by
successive `dequeue` calls returns the entries in non-decreasing
`(deadline, est_runtime)` priority order; entries with equal priorities
come out in strictly increasing counter order; and each entry's counter is
exactly its position in the insertion sequence (so equal-key tasks pop in
original insertion order, never arbitrarily). -/
theorem C4_queue_pop_order (ts : List QTask) :
    List.Pairwise (fun a b => prioLe a.prio b.prio) (drainHeap (pushAll ts).heap) ∧
    List.Pairwise (fun a b => a.prio = b.prio → a.ctr < b.ctr) (drainHeap (pushAll ts).heap) ∧
    ∀ e ∈ drainHeap (pushAll ts).heap, ts.get? e.ctr = some e.task := by
  have hsorted : List.Pairwise entryLe (drainHeap (pushAll ts).heap) :=
    drainGo_sorted _ _ (le_refl _)
  have hperm : List.Perm (drainHeap (pushAll ts).heap) (pushAll ts).heap :=
    drainGo_perm _ _ (le_refl _)
  have hctr_nodup : ((drainHeap (pushAll ts).heap).map HeapEntry.ctr).Nodup := by
    have h1 : ((pushAll ts).heap.map HeapEntry.ctr).Nodup := by
      rw [pushAll_heap]
      exact entriesFrom_ctr_nodup ts 0
    exact ((hperm.map HeapEntry.ctr).nodup_iff).mpr h1
  have hne : List.Pairwise (fun a b : HeapEntry => a.ctr ≠ b.ctr)
      (drainHeap (pushAll ts).heap) := List.pairwise_map.mp hctr_nodup
  refine ⟨?_, ?_, ?_⟩
  · refine hsorted.imp ?_
    intro a b h
    rcases h with h | ⟨e1, h⟩
    · exact Or.inl h
    · rcases h with h | ⟨e2, h⟩
      · exact Or.inr ⟨e1, le_of_lt h⟩
      · exact Or.inr ⟨e1, le_of_eq e2⟩
  · refine (hsorted.and hne).imp ?_
    intro a b hab hpeq
    obtain ⟨hle, hneq⟩ := hab
    rcases hle with h | ⟨e1, h⟩
    · rw [hpeq] at h
      exact absurd h (lt_irrefl _)
    · rcases h with h | ⟨e2, h⟩
      · have h2 : a.prio.2 = b.prio.2 := by rw [hpeq]
        rw [h2] at h
        exact absurd h (lt_irrefl _)
      · exact lt_of_le_of_ne h hneq
  · intro e he
    have hmem : e ∈ (pushAll ts).heap := (hperm.mem_iff).mp he
    rw [pushAll_heap] at hmem
    have := entriesFrom_get ts 0 e hmem
    simpa using this

/-- C4 witness: pushing `qT1` (deadline 9), then `qT2` and `qT3` (equal
keys, deadline 4): the entry with counter 1 drained from the queue is
`qT2`, the task inserted second. -/
theorem C4_witness : [qT1, qT2, qT3].get? 1 = some qT2 :=
  (C4_queue_pop_order [qT1, qT2, qT3]).2.2
    { prio := (4, 3), ctr := 1, task := qT2 } (by decide)
